import Mathlib

/-!
# Employee CRUD service: model, service, handlers and route table

A shallow embedding of the four source files

* `src/models/employeeModel.js`      (the Store, `EmployeeModel`)
* `src/services/employeeService.js`  (the Record Service, `EmployeeService`)
* `src/controllers/employeeController.js` (the request handlers)
* `src/routes/employeeRoutes.js`     (the route table)

Every `async` function becomes a function from the state of the relational
backend to a result (a value or a thrown error) paired with the backend state
afterwards.  Values are passed on as the code passes them: `req.params.id`
reaches the Store as received and is echoed as received by `update`, while
the rows read back carry the numeric key.  The backend itself (`pool`,
required from `../config/db`) and the middleware `validateEmployee` (required
from `../middlewares/validateRequest`) are not among the source files; the
former is modelled from the specification, the latter is a parameter of the
route table.
-/

/-! ## JavaScript values and errors -/

/-- The JavaScript values that reach the code in a body field, in
`req.params.id` or in a result: an absent field reads as `undefined`; the
others are `null`, a number (integers only) and a text. -/
inductive JsValue where
  | undefined
  | null
  | number (n : Int)
  | string (s : String)
  deriving DecidableEq, Repr

/-- JavaScript truthiness, as used by the `!` operator: `undefined`, `null`,
`0` and the empty text are falsy. -/
def JsValue.truthy : JsValue → Bool
  | .undefined => false
  | .null => false
  | .number n => n != 0
  | .string s => s != ""

/-- A thrown JavaScript `Error` object, identified by its message. -/
structure JsError where
  message : String
  deriving DecidableEq, Repr

/-- The object `{ id, name, email, position }` the code passes around: the
value returned by `create` and `update`, and a row returned by a `SELECT`. -/
structure Employee where
  id : JsValue
  name : JsValue
  email : JsValue
  position : JsValue
  deriving DecidableEq, Repr

/-- The request data object, read through its fields `name`, `email` and
`position` (the destructuring `{ name, email, position }`). -/
structure Body where
  name : JsValue
  email : JsValue
  position : JsValue
  deriving DecidableEq, Repr

/-! ## The relational backend behind `pool.query` -/

/-- A row of the `employees` table: an integer key and three text columns,
each of which may hold SQL `NULL` (`none`). -/
structure Row where
  id : Int
  name : Option String
  email : Option String
  position : Option String
  deriving DecidableEq, Repr

/-- A statement handed to the backend: its text and its bound values. -/
structure Statement where
  sql : String
  values : List JsValue
  deriving DecidableEq, Repr

/-- State of the backend: the rows of the `employees` table in backend order,
the next key the auto-increment mechanism will assign, and the statements
issued so far (oldest first). -/
structure Backend where
  employees : List Row
  autoIncrement : Int
  issued : List Statement
  deriving DecidableEq, Repr

/-- First component of what `pool.query` resolves to: the rows of a `SELECT`,
or the result header of an `INSERT`, `UPDATE` or `DELETE`. -/
inductive QueryResult where
  | rows (rs : List Employee)
  | header (insertId : Int) (affectedRows : Nat)
  deriving DecidableEq, Repr

/-- The result read as an array of rows (a header has no rows). -/
def QueryResult.asRows : QueryResult → List Employee
  | .rows rs => rs
  | .header _ _ => []

/-- Reading `rows[0]`: the first row, or `undefined` (`none`). -/
def QueryResult.first : QueryResult → Option Employee
  | .rows rs => rs.head?
  | .header _ _ => none

/-- Reading `result.insertId`: defined on a result header only. -/
def QueryResult.insertId : QueryResult → JsValue
  | .rows _ => .undefined
  | .header i _ => .number i

/-- Value stored in a text column for a bound parameter: `undefined` and
`null` are bound as SQL `NULL`, a text as itself, a number as its decimal
text. -/
def JsValue.toColumn : JsValue → Option String
  | .undefined => none
  | .null => none
  | .number n => some (toString n)
  | .string s => some s

/-- Value of a text made of decimal digits only, read from the left with the
value `acc` of the digits already read; `none` when another character occurs. -/
def decimalValue : List Char → Nat → Option Nat
  | [], acc => some acc
  | c :: cs, acc =>
      if c.isDigit then decimalValue cs (10 * acc + (c.toNat - 48)) else none

/-- The key a bound value denotes when the backend compares it with the
integer column `id`: a number denotes itself, a non-empty text of decimal
digits (the form in which a route hands over an id) denotes the number it
spells, and `undefined` and `null`, bound as SQL `NULL`, denote no key.  How
the engine reads any other text is not visible in the source; here it denotes
no key. -/
def JsValue.toKey : JsValue → Option Int
  | .undefined => none
  | .null => none
  | .number n => some n
  | .string s =>
      match s.data with
      | [] => none
      | cs => (decimalValue cs 0).map Int.ofNat

/-- A text column as the driver hands it back to JavaScript. -/
def columnToJs : Option String → JsValue
  | none => .null
  | some s => .string s

/-- A table row as the driver hands it back to JavaScript. -/
def Row.toEmployee (r : Row) : Employee :=
  { id := .number r.id, name := columnToJs r.name, email := columnToJs r.email,
    position := columnToJs r.position }

/-- Modelled from the spec: the relational backend reached through
`pool.query`, whose module `../config/db` and whose SQL engine are not among
the source files.  It follows the persisted schema of the specification (a
table `employees` with an auto-assigned integer key `id` and the text columns
`name`, `email`, `position`) and gives each of the five statements of
`EmployeeModel` its SQL meaning: `SELECT` returns the (matching) rows in table
order, `INSERT` appends a row under the next auto-increment key and reports
that key as `insertId`, `UPDATE` overwrites the three text columns of every
row whose `id` is the key the parameter denotes (`JsValue.toKey`), `DELETE`
removes every such row.  Every call is recorded in `issued`.  The text columns
accept every bound value, `NULL` included: the specification lists them as
text-typed and names no constraint, and whether the real schema refuses
`NULL` is not visible in the source.  Connectivity and constraint failures are
outside this model; any other statement is answered with an error. -/
def pool.query (sql : String) (values : List JsValue) (db : Backend) :
    Except JsError QueryResult × Backend :=
  let db1 : Backend := { db with issued := db.issued ++ [⟨sql, values⟩] }
  if sql = "SELECT * FROM employees" then
    match values with
    | [] => (.ok (.rows (db.employees.map Row.toEmployee)), db1)
    | _ => (.error ⟨"unsupported statement"⟩, db1)
  else if sql = "SELECT * FROM employees WHERE id = ?" then
    match values with
    | [id] =>
        (.ok (.rows ((db.employees.filter (fun r => id.toKey == some r.id)).map
          Row.toEmployee)), db1)
    | _ => (.error ⟨"unsupported statement"⟩, db1)
  else if sql = "INSERT INTO employees (name, email, position) VALUES (?, ?, ?)" then
    match values with
    | [name, email, position] =>
        (.ok (.header db.autoIncrement 1),
         { db1 with
           employees := db.employees ++
             [⟨db.autoIncrement, name.toColumn, email.toColumn, position.toColumn⟩],
           autoIncrement := db.autoIncrement + 1 })
    | _ => (.error ⟨"unsupported statement"⟩, db1)
  else if sql = "UPDATE employees SET name = ?, email = ?, position = ? WHERE id = ?" then
    match values with
    | [name, email, position, id] =>
        (.ok (.header 0 (db.employees.filter (fun r => id.toKey == some r.id)).length),
         { db1 with
           employees := db.employees.map (fun r =>
             if id.toKey == some r.id then
               ⟨r.id, name.toColumn, email.toColumn, position.toColumn⟩
             else r) })
    | _ => (.error ⟨"unsupported statement"⟩, db1)
  else if sql = "DELETE FROM employees WHERE id = ?" then
    match values with
    | [id] =>
        (.ok (.header 0 (db.employees.filter (fun r => id.toKey == some r.id)).length),
         { db1 with employees := db.employees.filter (fun r => !(id.toKey == some r.id)) })
    | _ => (.error ⟨"unsupported statement"⟩, db1)
  else (.error ⟨"unsupported statement"⟩, db1)

/-! ## `src/models/employeeModel.js` -/

/-- The acknowledgment object `{ message }` returned by `EmployeeModel.delete`. -/
structure Ack where
  message : String
  deriving DecidableEq, Repr

/-- Store operation `EmployeeModel.getAll()`. -/
def EmployeeModel.getAll (db : Backend) : Except JsError (List Employee) × Backend :=
  match pool.query "SELECT * FROM employees" [] db with
  | (.ok rows, db') => (.ok rows.asRows, db')
  | (.error e, db') => (.error e, db')

/-- Store operation `EmployeeModel.getById(id)`: it returns `rows[0]`, which
is `undefined` (`none`) when no row matched. -/
def EmployeeModel.getById (id : JsValue) (db : Backend) :
    Except JsError (Option Employee) × Backend :=
  match pool.query "SELECT * FROM employees WHERE id = ?" [id] db with
  | (.ok rows, db') => (.ok rows.first, db')
  | (.error e, db') => (.error e, db')

/-- Store operation `EmployeeModel.create({ name, email, position })`. -/
def EmployeeModel.create (data : Body) (db : Backend) : Except JsError Employee × Backend :=
  match pool.query "INSERT INTO employees (name, email, position) VALUES (?, ?, ?)"
      [data.name, data.email, data.position] db with
  | (.ok result, db') =>
      (.ok { id := result.insertId, name := data.name, email := data.email,
             position := data.position }, db')
  | (.error e, db') => (.error e, db')

/-- Store operation `EmployeeModel.update(id, { name, email, position })`. -/
def EmployeeModel.update (id : JsValue) (data : Body) (db : Backend) :
    Except JsError Employee × Backend :=
  match pool.query "UPDATE employees SET name = ?, email = ?, position = ? WHERE id = ?"
      [data.name, data.email, data.position, id] db with
  | (.ok _, db') =>
      (.ok { id := id, name := data.name, email := data.email,
             position := data.position }, db')
  | (.error e, db') => (.error e, db')

/-- Store operation `EmployeeModel.delete(id)`. -/
def EmployeeModel.delete (id : JsValue) (db : Backend) : Except JsError Ack × Backend :=
  match pool.query "DELETE FROM employees WHERE id = ?" [id] db with
  | (.ok _, db') => (.ok { message := "Employee deleted successfully" }, db')
  | (.error e, db') => (.error e, db')

/-! ## `src/services/employeeService.js` -/

/-- Service operation `EmployeeService.getAllEmployees()`. -/
def EmployeeService.getAllEmployees (db : Backend) :
    Except JsError (List Employee) × Backend :=
  EmployeeModel.getAll db

/-- Service operation `EmployeeService.getEmployeeById(id)`. -/
def EmployeeService.getEmployeeById (id : JsValue) (db : Backend) :
    Except JsError (Option Employee) × Backend :=
  EmployeeModel.getById id db

/-- Service operation `EmployeeService.createEmployee(data)`: it throws before
calling the model when one of the three fields is falsy. -/
def EmployeeService.createEmployee (data : Body) (db : Backend) :
    Except JsError Employee × Backend :=
  if !data.name.truthy || !data.email.truthy || !data.position.truthy then
    (.error ⟨"All fields are required"⟩, db)
  else
    EmployeeModel.create data db

/-- Service operation `EmployeeService.updateEmployee(id, data)`. -/
def EmployeeService.updateEmployee (id : JsValue) (data : Body) (db : Backend) :
    Except JsError Employee × Backend :=
  EmployeeModel.update id data db

/-- Service operation `EmployeeService.deleteEmployee(id)`. -/
def EmployeeService.deleteEmployee (id : JsValue) (db : Backend) :
    Except JsError Ack × Backend :=
  EmployeeModel.delete id db

/-! ## `src/controllers/employeeController.js` -/

/-- The JSON value a handler sends: an array of employees, one employee, or
one of the objects `{ error }` and `{ message }`. -/
inductive ResBody where
  | employees (rows : List Employee)
  | employee (e : Employee)
  | error (error : String)
  | message (message : String)
  deriving DecidableEq, Repr

/-- A response sent with `res.status(..).json(..)`; `res.json(..)` alone sends
status 200. -/
structure Response where
  status : Nat
  body : ResBody
  deriving DecidableEq, Repr

/-- How a handler or middleware ends: it sends a response, or it calls
`next`, with no argument (`none`) or with an error. -/
inductive Outcome where
  | sent (res : Response)
  | next (err : Option JsError)
  deriving DecidableEq, Repr

/-- What a handler reads from `req`: `req.params.id` and `req.body`.  The
handlers pass `req.params.id` on as they receive it; on the `/:id` routes the
router binds it to the text of the path segment (`.string "1"` for `/1`), and
on `/` it is `undefined`. -/
structure Request where
  params_id : JsValue
  body : Body
  deriving DecidableEq, Repr

/-- A handler or middleware of the route table. -/
abbrev Handler := Request → Backend → Outcome × Backend

/-- Handler `EmployeeController.getEmployees`. -/
def EmployeeController.getEmployees : Handler := fun _req db =>
  match EmployeeService.getAllEmployees db with
  | (.ok employees, db') => (.sent ⟨200, .employees employees⟩, db')
  | (.error err, db') => (.next (some err), db')

/-- Handler `EmployeeController.getEmployee`. -/
def EmployeeController.getEmployee : Handler := fun req db =>
  match EmployeeService.getEmployeeById req.params_id db with
  | (.ok none, db') => (.sent ⟨404, .error "Employee not found"⟩, db')
  | (.ok (some employee), db') => (.sent ⟨200, .employee employee⟩, db')
  | (.error err, db') => (.next (some err), db')

/-- Handler `EmployeeController.createEmployee`. -/
def EmployeeController.createEmployee : Handler := fun req db =>
  match EmployeeService.createEmployee req.body db with
  | (.ok newEmployee, db') => (.sent ⟨201, .employee newEmployee⟩, db')
  | (.error err, db') => (.next (some err), db')

/-- Handler `EmployeeController.updateEmployee`. -/
def EmployeeController.updateEmployee : Handler := fun req db =>
  match EmployeeService.updateEmployee req.params_id req.body db with
  | (.ok updatedEmployee, db') => (.sent ⟨200, .employee updatedEmployee⟩, db')
  | (.error err, db') => (.next (some err), db')

/-- Handler `EmployeeController.deleteEmployee`. -/
def EmployeeController.deleteEmployee : Handler := fun req db =>
  match EmployeeService.deleteEmployee req.params_id db with
  | (.ok _, db') => (.sent ⟨200, .message "Employee deleted"⟩, db')
  | (.error err, db') => (.next (some err), db')

/-! ## `src/routes/employeeRoutes.js` -/

/-- The HTTP methods of the route table. -/
inductive Method where
  | GET | POST | PUT | DELETE
  deriving DecidableEq, Repr

/-- The two path patterns of the route table, `"/"` and `"/:id"`. -/
inductive PathPattern where
  | root
  | id
  deriving DecidableEq, Repr

/-- One registration `router.<method>(path, ...handlers)`. -/
structure Route where
  method : Method
  path : PathPattern
  chain : List Handler

/-- Modelled from the spec: the middleware `validateEmployee`, whose module
`../middlewares/validateRequest` is not among the source files.  Given the
request body it either accepts (`none`: the request passes through unchanged)
or rejects with a client-error response (`some`).  Its field rules are this
parameter. -/
abbrev Validator := Body → Option Response

/-- The middleware built from a validator: `next()` on acceptance, the
rejection response otherwise; the backend is not touched. -/
def Validator.toHandler (v : Validator) : Handler := fun req db =>
  match v req.body with
  | none => (.next none, db)
  | some res => (.sent res, db)

/-- The route table, in registration order. -/
def router (validateEmployee : Validator) : List Route :=
  [ ⟨.GET, .root, [EmployeeController.getEmployees]⟩,
    ⟨.GET, .id, [EmployeeController.getEmployee]⟩,
    ⟨.POST, .root, [validateEmployee.toHandler, EmployeeController.createEmployee]⟩,
    ⟨.PUT, .id, [validateEmployee.toHandler, EmployeeController.updateEmployee]⟩,
    ⟨.DELETE, .id, [EmployeeController.deleteEmployee]⟩ ]

/-- Running the handlers of one route in order: the next handler runs only
when the one before it called `next()` with no error; a sent response or
`next(err)` ends the chain.  A chain that runs out ends with `next()`. -/
def runChain : List Handler → Handler
  | [], _, db => (.next none, db)
  | h :: rest, req, db =>
      match h req db with
      | (.next none, db') => runChain rest req db'
      | (out, db') => (out, db')

/-- The chain registered for a method and path pattern: that of the first
matching route, if any. -/
def lookupChain (routes : List Route) (m : Method) (p : PathPattern) :
    Option (List Handler) :=
  (routes.find? (fun r => r.method == m && r.path == p)).map Route.chain

/-- Dispatching a request through the route table: the chain of the first
matching route is run; with no matching route the router calls `next()`. -/
def dispatch (routes : List Route) (m : Method) (p : PathPattern) : Handler :=
  fun req db =>
    match lookupChain routes m p with
    | some chain => runChain chain req db
    | none => (.next none, db)

/-! ## Sample data used in the statements -/

/-- Number of `?` placeholders in a statement text. -/
def placeholders (sql : String) : Nat :=
  sql.toList.count '?'

/-- A table holding the one employee of the specification's scenarios. -/
def sampleDb : Backend :=
  { employees := [⟨1, some "Ana", some "a@x.com", some "Eng"⟩], autoIncrement := 2,
    issued := [] }

/-- A sample validator: it rejects with status 400 a body whose `name` is
falsy and accepts every other body. -/
def requireName : Validator := fun body =>
  if body.name.truthy then none else some ⟨400, .error "name is required"⟩

/-! ## The Store operations and the get-one handler in closed form -/

/-- Closed form of `EmployeeModel.getById`: one `SELECT` is issued and the
first row whose key is the one `id` denotes is returned. -/
theorem EmployeeModel.getById_eq (id : JsValue) (db : Backend) :
    EmployeeModel.getById id db =
      (.ok ((db.employees.filter (fun r => id.toKey == some r.id)).map
          Row.toEmployee).head?,
       { db with issued := db.issued ++
          [⟨"SELECT * FROM employees WHERE id = ?", [id]⟩] }) := by
  simp [EmployeeModel.getById, pool.query, QueryResult.first]

/-- Closed form of `EmployeeModel.getAll`: one `SELECT` is issued and all
rows are returned in table order. -/
theorem EmployeeModel.getAll_eq (db : Backend) :
    EmployeeModel.getAll db =
      (.ok (db.employees.map Row.toEmployee),
       { db with issued := db.issued ++ [⟨"SELECT * FROM employees", []⟩] }) := by
  simp [EmployeeModel.getAll, pool.query, QueryResult.asRows]

/-- Closed form of `EmployeeModel.create`: one `INSERT` is issued, a row is
appended under the next key and the inputs are echoed with that key. -/
theorem EmployeeModel.create_eq (data : Body) (db : Backend) :
    EmployeeModel.create data db =
      (.ok ⟨.number db.autoIncrement, data.name, data.email, data.position⟩,
       { employees := db.employees ++
           [⟨db.autoIncrement, data.name.toColumn, data.email.toColumn,
             data.position.toColumn⟩],
         autoIncrement := db.autoIncrement + 1,
         issued := db.issued ++
           [⟨"INSERT INTO employees (name, email, position) VALUES (?, ?, ?)",
             [data.name, data.email, data.position]⟩] }) := by
  simp [EmployeeModel.create, pool.query, QueryResult.insertId]

/-- Closed form of `EmployeeModel.update`: one `UPDATE` is issued, the rows
whose key is the one `id` denotes are overwritten and the inputs are echoed,
the id as it was received. -/
theorem EmployeeModel.update_eq (id : JsValue) (data : Body) (db : Backend) :
    EmployeeModel.update id data db =
      (.ok ⟨id, data.name, data.email, data.position⟩,
       { db with
         employees := db.employees.map (fun r =>
           if id.toKey == some r.id then
             ⟨r.id, data.name.toColumn, data.email.toColumn, data.position.toColumn⟩
           else r),
         issued := db.issued ++
           [⟨"UPDATE employees SET name = ?, email = ?, position = ? WHERE id = ?",
             [data.name, data.email, data.position, id]⟩] }) := by
  simp [EmployeeModel.update, pool.query]

/-- Closed form of `EmployeeModel.delete`: one `DELETE` is issued and the
rows whose key is the one `id` denotes are removed. -/
theorem EmployeeModel.delete_eq (id : JsValue) (db : Backend) :
    EmployeeModel.delete id db =
      (.ok ⟨"Employee deleted successfully"⟩,
       { db with
         employees := db.employees.filter (fun r => !(id.toKey == some r.id)),
         issued := db.issued ++ [⟨"DELETE FROM employees WHERE id = ?", [id]⟩] }) := by
  simp [EmployeeModel.delete, pool.query]

/-- The first element of a filtered list is the first element satisfying the
predicate. -/
theorem head?_filter_eq_find? {α : Type} (p : α → Bool) (l : List α) :
    (l.filter p).head? = l.find? p := by
  induction l with
  | nil => rfl
  | cons a l ih =>
    cases hp : p a
    · simp [List.filter, List.find?, hp, ih]
    · simp [List.filter, List.find?, hp]

/-- Closed form of the get-one handler: one `SELECT` is issued; the answer is
404 when no row has the requested id and 200 with the first such row
otherwise. -/
theorem EmployeeController.getEmployee_eq (req : Request) (db : Backend) :
    EmployeeController.getEmployee req db =
      ((match db.employees.find? (fun r => req.params_id.toKey == some r.id) with
        | none => .sent ⟨404, .error "Employee not found"⟩
        | some r => .sent ⟨200, .employee r.toEmployee⟩),
       { db with issued := db.issued ++
          [⟨"SELECT * FROM employees WHERE id = ?", [req.params_id]⟩] }) := by
  unfold EmployeeController.getEmployee EmployeeService.getEmployeeById
  rw [EmployeeModel.getById_eq, List.head?_map, head?_filter_eq_find?]
  cases db.employees.find? (fun r => req.params_id.toKey == some r.id) <;> rfl

/-- Closed form of the update handler: status 200 and the echo of its inputs,
on the state `EmployeeModel.update` leaves. -/
theorem EmployeeController.updateEmployee_eq (req : Request) (db : Backend) :
    EmployeeController.updateEmployee req db =
      (.sent ⟨200, .employee
        ⟨req.params_id, req.body.name, req.body.email, req.body.position⟩⟩,
       (EmployeeModel.update req.params_id req.body db).2) := by
  simp [EmployeeController.updateEmployee, EmployeeService.updateEmployee,
    EmployeeModel.update_eq]

/-- Closed form of the delete handler: status 200 and its own message, on the
state `EmployeeModel.delete` leaves. -/
theorem EmployeeController.deleteEmployee_eq (req : Request) (db : Backend) :
    EmployeeController.deleteEmployee req db =
      (.sent ⟨200, .message "Employee deleted"⟩,
       (EmployeeModel.delete req.params_id db).2) := by
  simp [EmployeeController.deleteEmployee, EmployeeService.deleteEmployee,
    EmployeeModel.delete_eq]

/-! ## The claims -/

/-- C1. When `name`, `email` or `position` of the request data object is absent
or empty (more generally falsy: `undefined`, `""`, `null` or `0`),
`EmployeeService.createEmployee` throws the error with message
"All fields are required" (the failure the specification calls
`ValidationError`) and the backend is left exactly as it was: no statement is
issued, and the rows of the table and their number are unchanged. -/
theorem createEmployee_rejects_missing_field (data : Body) (db : Backend)
    (h : data.name.truthy = false ∨ data.email.truthy = false ∨
      data.position.truthy = false) :
    EmployeeService.createEmployee data db = (.error ⟨"All fields are required"⟩, db) ∧
    (EmployeeService.createEmployee data db).2.issued = db.issued ∧
    (EmployeeService.createEmployee data db).2.employees = db.employees ∧
    (EmployeeService.createEmployee data db).2.employees.length = db.employees.length := by
  have key : EmployeeService.createEmployee data db =
      (.error ⟨"All fields are required"⟩, db) := by
    unfold EmployeeService.createEmployee
    rcases h with h | h | h <;> simp [h]
  simp [key]

/-- Witness for C1: a body whose `name` is absent and one whose `name` is the
empty text are both rejected on the sample table. -/
theorem createEmployee_rejects_missing_field_witness :
    (EmployeeService.createEmployee ⟨.undefined, .string "a@x.com", .string "Eng"⟩ sampleDb
        = (.error ⟨"All fields are required"⟩, sampleDb)) ∧
    (EmployeeService.createEmployee ⟨.string "", .string "a@x.com", .string "Eng"⟩ sampleDb
        = (.error ⟨"All fields are required"⟩, sampleDb)) :=
  ⟨(createEmployee_rejects_missing_field ⟨.undefined, .string "a@x.com", .string "Eng"⟩
      sampleDb (Or.inl rfl)).1,
   (createEmployee_rejects_missing_field ⟨.string "", .string "a@x.com", .string "Eng"⟩
      sampleDb (Or.inl (by decide))).1⟩

/-- C2. The get-one handler answers 404 with `{error: "Employee not found"}`
when no row of the table has the requested id, and 200 with the first row that
has it otherwise; the 404 case is exactly the case in which no row matches,
which is exactly the case in which `EmployeeModel.getById` returns `undefined`.
A row matches when its key is the one `req.params.id` denotes. -/
theorem getEmployee_found_or_404 (req : Request) (db : Backend) :
    (EmployeeController.getEmployee req db).1 =
      (match db.employees.find? (fun r => req.params_id.toKey == some r.id) with
       | none => .sent ⟨404, .error "Employee not found"⟩
       | some r => .sent ⟨200, .employee r.toEmployee⟩) ∧
    ((EmployeeController.getEmployee req db).1 = .sent ⟨404, .error "Employee not found"⟩ ↔
      ∀ r ∈ db.employees, req.params_id.toKey ≠ some r.id) ∧
    ((EmployeeModel.getById req.params_id db).1 = .ok none ↔
      ∀ r ∈ db.employees, req.params_id.toKey ≠ some r.id) ∧
    (EmployeeController.getEmployee req db).2.employees = db.employees := by
  have hfind : ((db.employees.filter (fun r => req.params_id.toKey == some r.id)).map
      Row.toEmployee).head? =
      (db.employees.find? (fun r => req.params_id.toKey == some r.id)).map
        Row.toEmployee := by
    rw [List.head?_map, head?_filter_eq_find?]
  have hnone : db.employees.find? (fun r => req.params_id.toKey == some r.id) = none ↔
      ∀ r ∈ db.employees, req.params_id.toKey ≠ some r.id := by
    simp [List.find?_eq_none]
  have hget := EmployeeController.getEmployee_eq req db
  refine ⟨by rw [hget], ?_, ?_, by rw [hget]⟩
  · rw [hget, ← hnone]
    cases db.employees.find? (fun r => req.params_id.toKey == some r.id) <;> simp
  · rw [EmployeeModel.getById_eq, hfind, ← hnone]
    cases db.employees.find? (fun r => req.params_id.toKey == some r.id) <;> simp

/-- C3. For texts `name`, `email`, `position` that are all non-empty, on a table
in which the key the backend assigns next is fresh (no row carries it),
`create` succeeds (through the Service as well as directly on the Store) and
returns an employee with a numeric id, and `getById` on that id, run on the
state `create` left, returns an employee equal to the one `create` returned. -/
theorem create_then_getById (name email position : String) (db : Backend)
    (hn : name ≠ "") (he : email ≠ "") (hp : position ≠ "")
    (fresh : ∀ r ∈ db.employees, r.id ≠ db.autoIncrement) :
    ∃ id : Int,
      (EmployeeModel.create ⟨.string name, .string email, .string position⟩ db).1 =
        .ok ⟨.number id, .string name, .string email, .string position⟩ ∧
      EmployeeService.createEmployee ⟨.string name, .string email, .string position⟩ db =
        EmployeeModel.create ⟨.string name, .string email, .string position⟩ db ∧
      (EmployeeModel.getById (.number id)
          (EmployeeModel.create ⟨.string name, .string email, .string position⟩ db).2).1 =
        .ok (some ⟨.number id, .string name, .string email, .string position⟩) := by
  refine ⟨db.autoIncrement, ?_, ?_, ?_⟩
  · rw [EmployeeModel.create_eq]
  · simp [EmployeeService.createEmployee, JsValue.truthy, hn, he, hp]
  · have hnil : db.employees.filter
        (fun r => (JsValue.number db.autoIncrement).toKey == some r.id) = [] := by
      rw [List.filter_eq_nil_iff]
      intro r hr
      have hne := fresh r hr
      simp only [JsValue.toKey, beq_iff_eq, Option.some.injEq]
      exact fun h => hne h.symm
    have hlast : [(⟨db.autoIncrement, some name, some email, some position⟩ : Row)].filter
        (fun r => (JsValue.number db.autoIncrement).toKey == some r.id) =
        [⟨db.autoIncrement, some name, some email, some position⟩] := by
      simp [JsValue.toKey]
    rw [EmployeeModel.create_eq, EmployeeModel.getById_eq]
    simp only [JsValue.toColumn, List.filter_append, hnil, hlast, List.nil_append,
      List.map_cons, List.map_nil, List.head?_cons]
    rfl

/-- Witness for C3: creating "Bo" on the sample table, whose next key 2 is
fresh, and reading the returned id back. -/
theorem create_then_getById_witness :
    ("Bo" ≠ "" ∧ "b@x.com" ≠ "" ∧ "QA" ≠ "" ∧
      ∀ r ∈ sampleDb.employees, r.id ≠ sampleDb.autoIncrement) ∧
    ∃ id : Int,
      (EmployeeModel.create ⟨.string "Bo", .string "b@x.com", .string "QA"⟩ sampleDb).1 =
        .ok ⟨.number id, .string "Bo", .string "b@x.com", .string "QA"⟩ ∧
      EmployeeService.createEmployee ⟨.string "Bo", .string "b@x.com", .string "QA"⟩ sampleDb =
        EmployeeModel.create ⟨.string "Bo", .string "b@x.com", .string "QA"⟩ sampleDb ∧
      (EmployeeModel.getById (.number id)
          (EmployeeModel.create ⟨.string "Bo", .string "b@x.com", .string "QA"⟩ sampleDb).2).1 =
        .ok (some ⟨.number id, .string "Bo", .string "b@x.com", .string "QA"⟩) :=
  ⟨⟨by decide, by decide, by decide, by decide⟩,
   create_then_getById "Bo" "b@x.com" "QA" sampleDb (by decide) (by decide) (by decide)
     (by decide)⟩

/-- C4. For every table and every id (in particular one that has a row),
`delete(id)` followed by `getById(id)` yields `undefined`; the delete handler
answers 200 with `{message: "Employee deleted"}` and a get-one on the same id
afterwards answers 404 with `{error: "Employee not found"}`; no row whose key
the id denotes is left in the table. -/
theorem delete_then_get_not_found (id : JsValue) (body body' : Body) (db : Backend) :
    (EmployeeModel.getById id (EmployeeModel.delete id db).2).1 = .ok none ∧
    (EmployeeController.deleteEmployee ⟨id, body⟩ db).1 =
      .sent ⟨200, .message "Employee deleted"⟩ ∧
    (EmployeeController.getEmployee ⟨id, body'⟩
        (EmployeeController.deleteEmployee ⟨id, body⟩ db).2).1 =
      .sent ⟨404, .error "Employee not found"⟩ ∧
    (∀ r ∈ (EmployeeModel.delete id db).2.employees, id.toKey ≠ some r.id) := by
  have hnil : (db.employees.filter (fun r => !(id.toKey == some r.id))).filter
      (fun r => id.toKey == some r.id) = [] := by
    rw [List.filter_eq_nil_iff]
    intro r hr
    have := (List.mem_filter.mp hr).2
    simpa using this
  have hdel := EmployeeController.deleteEmployee_eq ⟨id, body⟩ db
  refine ⟨?_, ?_, ?_, ?_⟩
  · rw [EmployeeModel.delete_eq, EmployeeModel.getById_eq]
    simp [hnil]
  · rw [hdel]
  · rw [hdel]
    unfold EmployeeController.getEmployee EmployeeService.getEmployeeById
    rw [EmployeeModel.delete_eq, EmployeeModel.getById_eq]
    simp [hnil]
  · rw [EmployeeModel.delete_eq]
    intro r hr
    have := (List.mem_filter.mp hr).2
    simpa using this

/-- C5. The update is idempotent: for every table, id and body, a second
`update(id, name, email, position)` on the state the first one left returns
the same employee as the first and leaves the same table (rows and next key);
the same holds through `EmployeeService.updateEmployee`. -/
theorem update_idempotent (id : JsValue) (data : Body) (db : Backend) :
    (EmployeeModel.update id data db).1 =
      .ok ⟨id, data.name, data.email, data.position⟩ ∧
    (EmployeeModel.update id data (EmployeeModel.update id data db).2).1 =
      (EmployeeModel.update id data db).1 ∧
    (EmployeeModel.update id data (EmployeeModel.update id data db).2).2.employees =
      (EmployeeModel.update id data db).2.employees ∧
    (EmployeeModel.update id data (EmployeeModel.update id data db).2).2.autoIncrement =
      (EmployeeModel.update id data db).2.autoIncrement ∧
    (EmployeeService.updateEmployee id data (EmployeeService.updateEmployee id data db).2).1 =
      (EmployeeService.updateEmployee id data db).1 ∧
    (EmployeeService.updateEmployee id data
        (EmployeeService.updateEmployee id data db).2).2.employees =
      (EmployeeService.updateEmployee id data db).2.employees := by
  have hmap : (db.employees.map (fun r =>
        if id.toKey == some r.id then
          (⟨r.id, data.name.toColumn, data.email.toColumn, data.position.toColumn⟩ : Row)
        else r)).map (fun r =>
        if id.toKey == some r.id then
          (⟨r.id, data.name.toColumn, data.email.toColumn, data.position.toColumn⟩ : Row)
        else r) =
      db.employees.map (fun r =>
        if id.toKey == some r.id then
          (⟨r.id, data.name.toColumn, data.email.toColumn, data.position.toColumn⟩ : Row)
        else r) := by
    rw [List.map_map]
    apply List.map_congr_left
    intro r _
    by_cases h : id.toKey = some r.id <;> simp [h]
  unfold EmployeeService.updateEmployee
  simp only [EmployeeModel.update_eq, hmap, and_self]

/-- C6 (as stated) fails, at scenario 4 of the specification: on the sample
table, which has a row with key 1, `PUT /1` with the body
`{name: "Ana B", email: "a@x.com", position: "Sr Eng"}` answers 200 with an
employee whose `id` is the route's text `"1"`, while the `GET /1` afterwards
answers 200 with the row, whose `id` is the number 1: the name, email and
position agree, the two employees do not. -/
theorem update_echo_id_differs_from_row_id :
    (∃ r ∈ sampleDb.employees, (JsValue.string "1").toKey = some r.id) ∧
    (EmployeeController.updateEmployee
        ⟨.string "1", ⟨.string "Ana B", .string "a@x.com", .string "Sr Eng"⟩⟩ sampleDb).1 =
      .sent ⟨200, .employee
        ⟨.string "1", .string "Ana B", .string "a@x.com", .string "Sr Eng"⟩⟩ ∧
    (EmployeeController.getEmployee ⟨.string "1", ⟨.undefined, .undefined, .undefined⟩⟩
        (EmployeeController.updateEmployee
          ⟨.string "1", ⟨.string "Ana B", .string "a@x.com", .string "Sr Eng"⟩⟩
          sampleDb).2).1 =
      .sent ⟨200, .employee
        ⟨.number 1, .string "Ana B", .string "a@x.com", .string "Sr Eng"⟩⟩ ∧
    (EmployeeController.getEmployee ⟨.string "1", ⟨.undefined, .undefined, .undefined⟩⟩
        (EmployeeController.updateEmployee
          ⟨.string "1", ⟨.string "Ana B", .string "a@x.com", .string "Sr Eng"⟩⟩
          sampleDb).2).1 ≠
      (EmployeeController.updateEmployee
        ⟨.string "1", ⟨.string "Ana B", .string "a@x.com", .string "Sr Eng"⟩⟩ sampleDb).1 := by
  decide

/-- C6 (amended). For every table, every id that denotes the key `k` of some
row and every body of three texts, the update handler answers 200 with the
employee `{id, name, email, position}` of its inputs, the id as it was
received; a get-one on the same id afterwards answers 200 with an employee of
the same name, email and position whose id is the number `k`; and all three
text columns of every row with key `k` are overwritten together while the
other rows are untouched. -/
theorem update_then_get_agree (id : JsValue) (k : Int) (name email position : String)
    (body' : Body) (db : Backend)
    (hkey : id.toKey = some k) (hrow : ∃ r ∈ db.employees, r.id = k) :
    (EmployeeController.updateEmployee
        ⟨id, ⟨.string name, .string email, .string position⟩⟩ db).1 =
      .sent ⟨200, .employee ⟨id, .string name, .string email, .string position⟩⟩ ∧
    (EmployeeController.getEmployee ⟨id, body'⟩
        (EmployeeController.updateEmployee
          ⟨id, ⟨.string name, .string email, .string position⟩⟩ db).2).1 =
      .sent ⟨200, .employee ⟨.number k, .string name, .string email, .string position⟩⟩ ∧
    (EmployeeController.updateEmployee
        ⟨id, ⟨.string name, .string email, .string position⟩⟩ db).2.employees =
      db.employees.map (fun r =>
        if r.id = k then ⟨r.id, some name, some email, some position⟩ else r) := by
  have hupd := EmployeeController.updateEmployee_eq
    ⟨id, ⟨.string name, .string email, .string position⟩⟩ db
  refine ⟨by rw [hupd], ?_, ?_⟩
  · rw [hupd, EmployeeController.getEmployee_eq, EmployeeModel.update_eq]
    simp only [List.find?_map, hkey]
    have hcomp : ((fun r : Row => some k == some r.id) ∘ fun r : Row =>
        if some k == some r.id then
          (⟨r.id, (JsValue.string name).toColumn, (JsValue.string email).toColumn,
            (JsValue.string position).toColumn⟩ : Row)
        else r) = fun r => some k == some r.id := by
      funext r
      by_cases h : k = r.id <;> simp [h]
    rw [hcomp]
    obtain ⟨r, hr, hid⟩ := hrow
    cases hf : db.employees.find? (fun r => some k == some r.id) with
    | none =>
      rw [List.find?_eq_none] at hf
      exact absurd (by simp [hid]) (hf r hr)
    | some r0 =>
      have h0 : k = r0.id := by simpa using List.find?_some hf
      simp [h0, Row.toEmployee, JsValue.toColumn, columnToJs]
  · rw [hupd, EmployeeModel.update_eq]
    simp only [hkey, JsValue.toColumn]
    apply List.map_congr_left
    intro r _
    by_cases h : k = r.id
    · simp [h]
    · have h2 : ¬ r.id = k := fun e => h e.symm
      simp [h, h2]

/-- Witness for C6 (amended): scenario 4 of the specification, `PUT /1` on the
sample table followed by `GET /1`. -/
theorem update_then_get_agree_witness :
    ((JsValue.string "1").toKey = some 1 ∧ ∃ r ∈ sampleDb.employees, r.id = 1) ∧
    (EmployeeController.updateEmployee
        ⟨.string "1", ⟨.string "Ana B", .string "a@x.com", .string "Sr Eng"⟩⟩ sampleDb).1 =
      .sent ⟨200, .employee
        ⟨.string "1", .string "Ana B", .string "a@x.com", .string "Sr Eng"⟩⟩ ∧
    (EmployeeController.getEmployee ⟨.string "1", ⟨.undefined, .undefined, .undefined⟩⟩
        (EmployeeController.updateEmployee
          ⟨.string "1", ⟨.string "Ana B", .string "a@x.com", .string "Sr Eng"⟩⟩
          sampleDb).2).1 =
      .sent ⟨200, .employee
        ⟨.number 1, .string "Ana B", .string "a@x.com", .string "Sr Eng"⟩⟩ :=
  ⟨⟨by decide, by decide⟩,
   (update_then_get_agree (.string "1") 1 "Ana B" "a@x.com" "Sr Eng"
      ⟨.undefined, .undefined, .undefined⟩ sampleDb (by decide) (by decide)).1,
   (update_then_get_agree (.string "1") 1 "Ana B" "a@x.com" "Sr Eng"
      ⟨.undefined, .undefined, .undefined⟩ sampleDb (by decide) (by decide)).2.1⟩

/-- C8. Each of the five Store operations issues exactly one statement, whose
text is a fixed string that does not depend on the inputs or on the table, and
whose bound values are exactly the inputs in the order of the placeholders:
none for `getAll`, `[id]` for `getById` and `delete`, `[name, email, position]`
for `create`, `[name, email, position, id]` for `update`; the number of
placeholders of each text is the number of bound values. -/
theorem store_statements_are_parameterized (db : Backend) :
    ((EmployeeModel.getAll db).2.issued =
        db.issued ++ [⟨"SELECT * FROM employees", []⟩] ∧
      placeholders "SELECT * FROM employees" = 0) ∧
    (∀ id : JsValue,
      (EmployeeModel.getById id db).2.issued =
        db.issued ++ [⟨"SELECT * FROM employees WHERE id = ?", [id]⟩]) ∧
    placeholders "SELECT * FROM employees WHERE id = ?" = 1 ∧
    (∀ data : Body,
      (EmployeeModel.create data db).2.issued =
        db.issued ++ [⟨"INSERT INTO employees (name, email, position) VALUES (?, ?, ?)",
          [data.name, data.email, data.position]⟩]) ∧
    placeholders "INSERT INTO employees (name, email, position) VALUES (?, ?, ?)" = 3 ∧
    (∀ (id : JsValue) (data : Body),
      (EmployeeModel.update id data db).2.issued =
        db.issued ++ [⟨"UPDATE employees SET name = ?, email = ?, position = ? WHERE id = ?",
          [data.name, data.email, data.position, id]⟩]) ∧
    placeholders "UPDATE employees SET name = ?, email = ?, position = ? WHERE id = ?" = 4 ∧
    (∀ id : JsValue,
      (EmployeeModel.delete id db).2.issued =
        db.issued ++ [⟨"DELETE FROM employees WHERE id = ?", [id]⟩]) ∧
    placeholders "DELETE FROM employees WHERE id = ?" = 1 := by
  refine ⟨⟨?_, by decide⟩, ?_, by decide, ?_, by decide, ?_, by decide, ?_, by decide⟩
  · rw [EmployeeModel.getAll_eq]
  · intro id; rw [EmployeeModel.getById_eq]
  · intro data; rw [EmployeeModel.create_eq]
  · intro id data; rw [EmployeeModel.update_eq]
  · intro id; rw [EmployeeModel.delete_eq]

/-- C9. In the route table the chains of `POST /` and `PUT /:id` are
`validateEmployee` followed by the handler, and those of `GET /`, `GET /:id`
and `DELETE /:id` are the handler alone.  Hence, whatever `validateEmployee`
is: a request whose body it rejects is answered on `POST /` and `PUT /:id`
with the rejection, the backend state is untouched (no statement is issued),
and the outcome is the same whichever handler stands behind the middleware;
a request it accepts reaches the handler; and `GET /`, `GET /:id` and
`DELETE /:id` run their handlers directly. -/
theorem validation_runs_before_create_and_update_only (validateEmployee : Validator) :
    (lookupChain (router validateEmployee) .POST .root =
        some [validateEmployee.toHandler, EmployeeController.createEmployee] ∧
      lookupChain (router validateEmployee) .PUT .id =
        some [validateEmployee.toHandler, EmployeeController.updateEmployee] ∧
      lookupChain (router validateEmployee) .GET .root =
        some [EmployeeController.getEmployees] ∧
      lookupChain (router validateEmployee) .GET .id =
        some [EmployeeController.getEmployee] ∧
      lookupChain (router validateEmployee) .DELETE .id =
        some [EmployeeController.deleteEmployee]) ∧
    (∀ (req : Request) (db : Backend) (res : Response),
      validateEmployee req.body = some res →
        dispatch (router validateEmployee) .POST .root req db = (.sent res, db) ∧
        dispatch (router validateEmployee) .PUT .id req db = (.sent res, db) ∧
        ∀ handler : Handler,
          runChain [validateEmployee.toHandler, handler] req db = (.sent res, db)) ∧
    (∀ (req : Request) (db : Backend),
      validateEmployee req.body = none →
        dispatch (router validateEmployee) .POST .root req db =
          EmployeeController.createEmployee req db ∧
        dispatch (router validateEmployee) .PUT .id req db =
          EmployeeController.updateEmployee req db) ∧
    (∀ (req : Request) (db : Backend),
      dispatch (router validateEmployee) .GET .root req db =
        EmployeeController.getEmployees req db ∧
      dispatch (router validateEmployee) .GET .id req db =
        EmployeeController.getEmployee req db ∧
      dispatch (router validateEmployee) .DELETE .id req db =
        EmployeeController.deleteEmployee req db) := by
  have hreject : ∀ (req : Request) (db : Backend) (res : Response) (handler : Handler),
      validateEmployee req.body = some res →
      runChain [validateEmployee.toHandler, handler] req db = (.sent res, db) := by
    intro req db res handler hv
    simp [runChain, Validator.toHandler, hv]
  have haccept : ∀ (req : Request) (db : Backend) (handler : Handler),
      validateEmployee req.body = none →
      runChain [validateEmployee.toHandler, handler] req db = runChain [handler] req db := by
    intro req db handler hv
    simp [runChain, Validator.toHandler, hv]
  have hone : ∀ (handler : Handler) (req : Request) (db : Backend),
      runChain [handler] req db = handler req db := by
    intro handler req db
    unfold runChain
    rcases hout : handler req db with ⟨out, db1⟩
    cases out with
    | sent r => rfl
    | next e =>
      cases e with
      | none => rfl
      | some e => rfl
  have hpost : lookupChain (router validateEmployee) .POST .root =
      some [validateEmployee.toHandler, EmployeeController.createEmployee] := rfl
  have hput : lookupChain (router validateEmployee) .PUT .id =
      some [validateEmployee.toHandler, EmployeeController.updateEmployee] := rfl
  have hlist : lookupChain (router validateEmployee) .GET .root =
      some [EmployeeController.getEmployees] := rfl
  have hget : lookupChain (router validateEmployee) .GET .id =
      some [EmployeeController.getEmployee] := rfl
  have hdel : lookupChain (router validateEmployee) .DELETE .id =
      some [EmployeeController.deleteEmployee] := rfl
  refine ⟨⟨hpost, hput, hlist, hget, hdel⟩, ?_, ?_, ?_⟩
  · intro req db res hv
    refine ⟨?_, ?_, fun handler => hreject req db res handler hv⟩
    · simp only [dispatch, hpost]; exact hreject req db res _ hv
    · simp only [dispatch, hput]; exact hreject req db res _ hv
  · intro req db hv
    constructor
    · simp only [dispatch, hpost]; rw [haccept req db _ hv, hone]
    · simp only [dispatch, hput]; rw [haccept req db _ hv, hone]
  · intro req db
    refine ⟨?_, ?_, ?_⟩
    · simp only [dispatch, hlist]; rw [hone]
    · simp only [dispatch, hget]; rw [hone]
    · simp only [dispatch, hdel]; rw [hone]

/-- Witness for C9: with the sample validator, a `POST /` and a `PUT /1`
whose body has no `name` are answered with the rejection and leave the sample
backend untouched. -/
theorem validation_runs_before_create_and_update_only_witness :
    requireName ⟨.undefined, .string "a@x.com", .string "Eng"⟩ =
      some ⟨400, .error "name is required"⟩ ∧
    dispatch (router requireName) .POST .root
        ⟨.undefined, ⟨.undefined, .string "a@x.com", .string "Eng"⟩⟩ sampleDb =
      (.sent ⟨400, .error "name is required"⟩, sampleDb) ∧
    dispatch (router requireName) .PUT .id
        ⟨.string "1", ⟨.undefined, .string "a@x.com", .string "Eng"⟩⟩ sampleDb =
      (.sent ⟨400, .error "name is required"⟩, sampleDb) :=
  ⟨rfl,
   ((validation_runs_before_create_and_update_only requireName).2.1
      ⟨.undefined, ⟨.undefined, .string "a@x.com", .string "Eng"⟩⟩ sampleDb
      ⟨400, .error "name is required"⟩ rfl).1,
   ((validation_runs_before_create_and_update_only requireName).2.1
      ⟨.string "1", ⟨.undefined, .string "a@x.com", .string "Eng"⟩⟩ sampleDb
      ⟨400, .error "name is required"⟩ rfl).2.1⟩

/-- C10. For every table, every id with no matching row and every body, the
update handler answers 200 with the echo `{id, name, email, position}` of its
inputs and the delete handler answers 200 with `{message: "Employee deleted"}`;
in both cases the rows of the table are left as they were. -/
theorem update_delete_succeed_without_row (id : JsValue) (data : Body) (db : Backend)
    (hno : ∀ r ∈ db.employees, id.toKey ≠ some r.id) :
    (EmployeeController.updateEmployee ⟨id, data⟩ db).1 =
      .sent ⟨200, .employee ⟨id, data.name, data.email, data.position⟩⟩ ∧
    (EmployeeController.deleteEmployee ⟨id, data⟩ db).1 =
      .sent ⟨200, .message "Employee deleted"⟩ ∧
    (EmployeeController.updateEmployee ⟨id, data⟩ db).2.employees = db.employees ∧
    (EmployeeController.deleteEmployee ⟨id, data⟩ db).2.employees = db.employees := by
  have hupd := EmployeeController.updateEmployee_eq ⟨id, data⟩ db
  have hdel := EmployeeController.deleteEmployee_eq ⟨id, data⟩ db
  refine ⟨by rw [hupd], by rw [hdel], ?_, ?_⟩
  · rw [hupd, EmployeeModel.update_eq]
    show db.employees.map _ = db.employees
    conv_rhs => rw [← List.map_id db.employees]
    apply List.map_congr_left
    intro r hr
    simp [hno r hr]
  · rw [hdel, EmployeeModel.delete_eq]
    show db.employees.filter _ = db.employees
    rw [List.filter_eq_self]
    intro r hr
    simp [hno r hr]

/-- Witness for C10: the id of `/999` has no row in the sample table. -/
theorem update_delete_succeed_without_row_witness :
    (∀ r ∈ sampleDb.employees, (JsValue.string "999").toKey ≠ some r.id) ∧
    (EmployeeController.updateEmployee
        ⟨.string "999", ⟨.string "Ana B", .string "a@x.com", .string "Sr Eng"⟩⟩ sampleDb).1 =
      .sent ⟨200, .employee
        ⟨.string "999", .string "Ana B", .string "a@x.com", .string "Sr Eng"⟩⟩ ∧
    (EmployeeController.deleteEmployee
        ⟨.string "999", ⟨.string "Ana B", .string "a@x.com", .string "Sr Eng"⟩⟩ sampleDb).1 =
      .sent ⟨200, .message "Employee deleted"⟩ :=
  ⟨by decide,
   (update_delete_succeed_without_row (.string "999")
      ⟨.string "Ana B", .string "a@x.com", .string "Sr Eng"⟩ sampleDb (by decide)).1,
   (update_delete_succeed_without_row (.string "999")
      ⟨.string "Ana B", .string "a@x.com", .string "Sr Eng"⟩ sampleDb (by decide)).2.1⟩
